import Mathlib

/-!
Shallow embedding of `scripts/extract_mixbox_lut.py` (the only source file of
the repository).  The script is a four-stage pipeline: it writes a Node.js
snippet, runs it to decompress the LUT embedded in `mixbox.esm.js` (writing
`mixbox_lut_raw.bin`), converts the raw bytes into a Dart array literal
written to `../lib/utils/mixbox_lut_data.dart`, and deletes the two
intermediate files.

The embedding models the file system as an association list from absolute
paths (lists of components) to file contents, and the external Node.js
invocation as a pure function of the mixbox source text together with an
oracle for the third-party `decompress` routine (which the script `eval`s out
of the mixbox file and is therefore external to the repository).
-/

namespace MixboxExtract

/-- An absolute path, as a list of components.  `..` in the script's relative
paths is resolved by dropping the last component of the base directory. -/
abbrev Path := List String

/-- Contents of a file in the model.  The generated Node.js snippet
(`extract_lut.js`, lines 18-78 of the script) is modelled opaquely by the
`snippet` constructor: its behaviour when executed is modelled separately by
`nodeScriptRun`, and no claim depends on its literal text. -/
inductive FileData where
  | text (s : String)
  | snippet
  | bin (b : List Nat)
deriving DecidableEq

/-- Process state: current working directory, the file system, the set of
existing directories, and the log of error messages printed to stderr. -/
structure St where
  cwd : Path
  files : List (Path × FileData)
  dirs : List Path
  errLog : List String
deriving DecidableEq

/-- Look a path up in the file system. -/
def findFile (p : Path) : List (Path × FileData) → Option FileData
  | [] => none
  | (q, d) :: rest => if q = p then some d else findFile p rest

/-- Remove a path from the file system (`os.remove`; identity if absent). -/
def eraseFile (p : Path) (fs : List (Path × FileData)) : List (Path × FileData) :=
  fs.filter (fun e => decide (e.1 ≠ p))

/-- Write (create or overwrite) a file. -/
def writeFile (p : Path) (d : FileData) (fs : List (Path × FileData)) :
    List (Path × FileData) :=
  (p, d) :: eraseFile p fs

/-- All non-empty prefixes of a path: the directories `os.makedirs` creates. -/
def dirPrefixes : Path → List Path
  | [] => []
  | a :: rest => [a] :: (dirPrefixes rest).map (fun q => a :: q)

/-- Resolution of a leading `..` component against a base directory. -/
def parentDir (p : Path) : Path := p.dropLast

/-- The `expectedSize` of the decompressed LUT (line 60): 786432 = 64*64*64*3. -/
def expectedSize : Nat := 786432

/-- Size normalization of the decompressed buffer, lines 60-74 of the
embedded Node.js script: keep the buffer if its length is exactly
`expectedSize`; if larger, skip `length - expectedSize` leading bytes of
header/metadata; if smaller, fail (`process.exit(1)`, modelled as `none`). -/
def normalizeLut (lut : List Nat) : Option (List Nat) :=
  if lut.length = expectedSize then
    some lut
  else if lut.length > expectedSize then
    some (lut.drop (lut.length - expectedSize))
  else
    none

/-- The literal prefix of the pattern `/var lut = decompress\("([^"]+)"\);/`
searched for on line 28 of the embedded Node.js script. -/
def lutPat : List Char := "var lut = decompress(\"".data

/-- Attempt to match the regex `var lut = decompress\("([^"]+)"\);` at the
start of `s`: the literal prefix, then a non-empty greedy run of non-quote
characters (the capture), then the literal `");`. -/
def matchCaptureAt (s : List Char) : Option (List Char) :=
  if lutPat.isPrefixOf s then
    let rest := s.drop lutPat.length
    let cap := rest.takeWhile (fun c => c != '"')
    if cap ≠ [] ∧ (rest.drop cap.length).take 3 = [ '"', ')', ';' ] then
      some cap
    else
      none
  else
    none

/-- Scan left to right for the first match, as JavaScript `String.match` with
a non-global regex does. -/
def scanLut : List Char → Option (List Char)
  | [] => none
  | c :: rest =>
    match matchCaptureAt (c :: rest) with
    | some cap => some cap
    | none => scanLut rest

/-- The call `mixboxCode.match(/var lut = decompress\("([^"]+)"\);/)`, line 28 of the
embedded Node.js script, returning the captured group. -/
def findLutMatch (code : List Char) : Option (List Char) := scanLut code

/-- Substring containment (JavaScript `indexOf(pat) !== -1`). -/
def containsSub (pat : List Char) : List Char → Bool
  | [] => pat.isPrefixOf []
  | c :: rest => pat.isPrefixOf (c :: rest) || containsSub pat rest

/-- The literal searched for by `indexOf('function decompress(')`, line 40. -/
def decompressFnPat : List Char := "function decompress(".data

/-- Error messages printed on the various failure paths. -/
def errNodeMissing : String :=
  "Error: Node.js not found. Please install Node.js to run this script."

/-- Prefix of the message printed when the Node.js subprocess exits
non-zero (line 96 of the script; the exception detail is elided). -/
def errRunExtraction : String := "Error running extraction script:"

/-- Stderr of the Node.js script when the LUT pattern is absent (line 31). -/
def errNoLut : String := "Could not find LUT data in mixbox.esm.js"

/-- Stderr of the Node.js script when no decompress function exists (line 44). -/
def errNoDecompressFn : String := "Could not find decompress function"

/-- Stderr of the Node.js script when the buffer is too small (line 72). -/
def errTooSmall : String := "Decompressed data smaller than expected!"

/-- Stderr when the Node.js script itself throws (e.g. `readFileSync` on a
missing mixbox file, or the `eval`ed decompress routine throwing). -/
def errNodeThrew : String := "node: unhandled exception"

/-- Result of running the generated Node.js snippet: exit 0 having written
the raw buffer, or a non-zero exit with a stderr message. -/
inductive NodeOutcome where
  | ok (raw : List Nat)
  | fail (msg : String)
deriving DecidableEq

/-- Relative path from the scripts directory to the third-party mixbox file
(line 23 of the embedded Node.js script, after resolving the leading `..`). -/
def mixboxRel : Path :=
  ["reference-mixbox", "mixbox-master", "javascript", "mixbox.esm.js"]

/-- Behaviour of the generated Node.js snippet (lines 18-78 of the script),
run with current directory `st.cwd`: read the mixbox file, find the
`decompress("...")` declaration, check the decompress function is present,
decompress (the third-party routine, `eval`ed from the mixbox file itself, is
the external oracle `decompress`; `none` models it throwing), and normalize
the size.  On success the caller writes `mixbox_lut_raw.bin`. -/
def nodeScriptRun (decompress : List Char → Option (List Nat)) (st : St) :
    NodeOutcome :=
  match findFile (parentDir st.cwd ++ mixboxRel) st.files with
  | some (FileData.text code) =>
    match findLutMatch code.data with
    | none => NodeOutcome.fail errNoLut
    | some compressedLut =>
      if containsSub decompressFnPat code.data then
        match decompress compressedLut with
        | none => NodeOutcome.fail errNodeThrew
        | some lut =>
          match normalizeLut lut with
          | some lutBuffer => NodeOutcome.ok lutBuffer
          | none => NodeOutcome.fail errTooSmall
      else
        NodeOutcome.fail errNoDecompressFn
  | _ => NodeOutcome.fail errNodeThrew

/-- The environment external to the Python process: the directory containing
the script, whether the `node` executable exists, and the third-party
decompress routine. -/
structure Env where
  scriptDir : Path
  nodeAvailable : Bool
  decompress : List Char → Option (List Nat)

/-- Python `create_extraction_script` (lines 16-81): write the Node.js snippet to
`extract_lut.js` in the current directory. -/
def create_extraction_script (st : St) : St :=
  { st with files := writeFile (st.cwd ++ ["extract_lut.js"]) FileData.snippet st.files }

/-- Python `run_extraction` (lines 83-102): run `node extract_lut.js`; on success the
snippet has written `mixbox_lut_raw.bin`; a non-zero exit
(`CalledProcessError`) or a missing `node` (`FileNotFoundError`) is reported
on stderr and `False` is returned. -/
def run_extraction (env : Env) (st : St) : Bool × St :=
  if env.nodeAvailable then
    match nodeScriptRun env.decompress st with
    | NodeOutcome.ok raw =>
      (true, { st with
        files := writeFile (st.cwd ++ ["mixbox_lut_raw.bin"]) (FileData.bin raw) st.files })
    | NodeOutcome.fail msg =>
      (false, { st with errLog := errRunExtraction :: msg :: st.errLog })
  else
    (false, { st with errLog := errNodeMissing :: st.errLog })

/-- One data line of the generated Dart file, without the optional trailing
comma: `"  " + ", ".join(str(b) for b in chunk)` (line 136). -/
def chunkLine (chunk : List Nat) : String :=
  "  " ++ String.intercalate ", " (chunk.map (fun b => toString b))

/-- The loop of lines 134-139: one rendered line per 16-byte chunk, indexed
by the byte offset `i`; a line gets a trailing comma when `i + 16 <
total` (i.e. when it is not the last chunk). -/
def dartChunkLines (total : Nat) : Nat → List Nat → List String
  | _, [] => []
  | i, a :: rest =>
    (if i + 16 < total then chunkLine ((a :: rest).take 16) ++ "," else
      chunkLine ((a :: rest).take 16)) ::
      dartChunkLines total (i + 16) ((a :: rest).drop 16)
termination_by _ l => l.length
decreasing_by simp [List.length_drop]; omega

/-- A comment row of 58 equals signs, as in lines 115 and 122 of the
script (spelled out with `replicate` rather than as a literal). -/
def eqRow : String := String.mk (List.replicate 58 '=')

/-- The descriptive header comment of the generated Dart file
(lines 115-129). -/
def dartHeaderComment : String :=
  "// " ++ eqRow ++ "\n" ++
  "//  MIXBOX 2.0 LUT DATA\n" ++
  "//  Automatically generated from mixbox.esm.js\n" ++
  "//\n" ++
  "//  This file contains the lookup table for Mixbox pigment mixing.\n" ++
  "//  Original implementation: (c) 2022 Secret Weapons\n" ++
  "//  License: Creative Commons Attribution-NonCommercial 4.0\n" ++
  "// " ++ eqRow ++ "\n" ++
  "\n" ++
  "/// Mixbox Lookup Table (LUT) Data\n" ++
  "///\n" ++
  "/// This is a 64×64×64 lookup table that maps RGB colors to a\n" ++
  "/// 7-dimensional latent space representing pigment mixing behavior.\n" ++
  "///\n" ++
  "/// Size: 786,432 bytes (64 * 64 * 64 * 3)\n"

/-- The fixed header of the generated Dart file (lines 115-131): the comment
followed by the opening of the `mixboxLutData` array declaration. -/
def dartHeader : String :=
  dartHeaderComment ++ "const List<int> mixboxLutData = [\n"

/-- The full generated Dart source (lines 115-141): header, one line per
16-byte chunk each terminated by a newline, and the closing `];`. -/
def dart_code (lut_data : List Nat) : String :=
  dartHeader ++
    String.join ((dartChunkLines lut_data.length 0 lut_data).map (fun l => l ++ "\n")) ++
    "];\n"

/-- The output path `os.path.join('..', 'lib', 'utils',
'mixbox_lut_data.dart')` (line 144), resolved against `cwd`. -/
def outputPath (cwd : Path) : Path :=
  parentDir cwd ++ ["lib", "utils", "mixbox_lut_data.dart"]

/-- The directory `os.path.dirname(output_path)` (line 145), resolved against `cwd`. -/
def outputDir (cwd : Path) : Path := parentDir cwd ++ ["lib", "utils"]

/-- Python `convert_to_dart` (lines 104-151): read `mixbox_lut_raw.bin`, create the
output's parent directories, and write the generated Dart file.  `none`
models the exception raised when the raw file cannot be read, which
propagates to `main`'s generic handler. -/
def convert_to_dart (st : St) : Option St :=
  match findFile (st.cwd ++ ["mixbox_lut_raw.bin"]) st.files with
  | some (FileData.bin lut_data) =>
    some { st with
      dirs := dirPrefixes (outputDir st.cwd) ++ st.dirs,
      files := writeFile (outputPath st.cwd) (FileData.text (dart_code lut_data)) st.files }
  | _ => none

/-- Python `cleanup` (lines 153-158): remove the two temporary files if present. -/
def cleanup (st : St) : St :=
  { st with
    files := eraseFile (st.cwd ++ ["mixbox_lut_raw.bin"])
      (eraseFile (st.cwd ++ ["extract_lut.js"]) st.files) }

/-- Python `main` (lines 160-207): change to the script's directory, then run the
four stages inside a `try`; a stage failure or an exception yields exit code
1, success yields 0. -/
def main (env : Env) (st0 : St) : Nat × St :=
  let st1 : St := { st0 with cwd := env.scriptDir }
  let st2 : St := create_extraction_script st1
  match run_extraction env st2 with
  | (false, st3) => (1, st3)
  | (true, st3) =>
    match convert_to_dart st3 with
    | none => (1, st3)
    | some st4 => (0, cleanup st4)

/-- The 16-byte chunking of the buffer performed by the loop on line 134. -/
def chunks16 : List Nat → List (List Nat)
  | [] => []
  | a :: rest => ((a :: rest).take 16) :: chunks16 ((a :: rest).drop 16)
termination_by l => l.length
decreasing_by simp [List.length_drop]; omega

/-- Append a comma to every element but the last: the shape of the comma
placement produced by the `i + 16 < len` test on line 137. -/
def markLast : List String → List String
  | [] => []
  | [s] => [s]
  | s :: b :: rest => (s ++ ",") :: markLast (b :: rest)

/-! ### Helper lemmas about the modelled file system -/

theorem findFile_writeFile_self (p : Path) (d : FileData)
    (fs : List (Path × FileData)) : findFile p (writeFile p d fs) = some d := by
  simp [writeFile, findFile]

theorem findFile_eraseFile_ne {p q : Path} (h : p ≠ q) :
    ∀ fs : List (Path × FileData), findFile p (eraseFile q fs) = findFile p fs := by
  intro fs
  induction fs with
  | nil => rfl
  | cons e rest ih =>
    obtain ⟨r, d⟩ := e
    by_cases hrq : r = q
    · subst hrq
      have hrp : ¬ r = p := fun he => h he.symm
      simp [eraseFile, List.filter_cons, findFile, hrp] at ih ⊢
      simpa [eraseFile] using ih
    · by_cases hrp : r = p
      · subst hrp
        simp [eraseFile, List.filter_cons, findFile, hrq]
      · simp [eraseFile, List.filter_cons, findFile, hrq, hrp] at ih ⊢
        simpa [eraseFile] using ih

theorem findFile_eraseFile_self (p : Path) :
    ∀ fs : List (Path × FileData), findFile p (eraseFile p fs) = none := by
  intro fs
  induction fs with
  | nil => rfl
  | cons e rest ih =>
    obtain ⟨r, d⟩ := e
    by_cases hrp : r = p
    · subst hrp
      simp [eraseFile, List.filter_cons] at ih ⊢
      simpa [eraseFile] using ih
    · simp [eraseFile, List.filter_cons, findFile, hrp] at ih ⊢
      simpa [eraseFile, findFile, hrp] using ih

theorem findFile_writeFile_ne {p q : Path} (h : p ≠ q) (d : FileData)
    (fs : List (Path × FileData)) :
    findFile p (writeFile q d fs) = findFile p fs := by
  have hqp : ¬ q = p := fun he => h he.symm
  simp [writeFile, findFile, hqp, findFile_eraseFile_ne h]

theorem append_singleton_ne {xs ys : Path} {a b : String} (h : a ≠ b) :
    xs ++ [a] ≠ ys ++ [b] := by
  intro he
  apply h
  have h1 : (xs ++ [a]).getLast? = some a := by simp
  have h2 : (ys ++ [b]).getLast? = some b := by simp
  rw [he] at h1
  rw [h1] at h2
  exact Option.some.inj h2

theorem outputPath_eq (cwd : Path) :
    outputPath cwd = (parentDir cwd ++ ["lib", "utils"]) ++ ["mixbox_lut_data.dart"] := by
  simp [outputPath]

theorem outputPath_ne_js (cwd sd : Path) :
    sd ++ ["extract_lut.js"] ≠ outputPath cwd := by
  rw [outputPath_eq]
  exact append_singleton_ne (by decide)

theorem outputPath_ne_rawbin (cwd sd : Path) :
    sd ++ ["mixbox_lut_raw.bin"] ≠ outputPath cwd := by
  rw [outputPath_eq]
  exact append_singleton_ne (by decide)

theorem js_ne_rawbin (sd sd' : Path) :
    sd ++ ["extract_lut.js"] ≠ sd' ++ ["mixbox_lut_raw.bin"] := by
  exact append_singleton_ne (by decide)

theorem self_mem_dirPrefixes {p : Path} (h : p ≠ []) : p ∈ dirPrefixes p := by
  induction p with
  | nil => exact absurd rfl h
  | cons a rest ih =>
    match rest with
    | [] => simp [dirPrefixes]
    | b :: t =>
      have hmem : b :: t ∈ dirPrefixes (b :: t) := ih (by simp)
      simp only [dirPrefixes, List.mem_cons]
      right
      exact List.mem_map.mpr ⟨b :: t, hmem, rfl⟩

/-! ### Helper lemmas about chunking and line rendering -/

theorem chunks16_nil : chunks16 [] = [] := by
  simp [chunks16]

theorem chunks16_cons (a : Nat) (rest : List Nat) :
    chunks16 (a :: rest) =
      ((a :: rest).take 16) :: chunks16 ((a :: rest).drop 16) := by
  rw [chunks16]

theorem dartChunkLines_nil (total i : Nat) : dartChunkLines total i [] = [] := by
  simp [dartChunkLines]

theorem dartChunkLines_cons (total i a : Nat) (rest : List Nat) :
    dartChunkLines total i (a :: rest) =
      (if i + 16 < total then chunkLine ((a :: rest).take 16) ++ "," else
        chunkLine ((a :: rest).take 16)) ::
        dartChunkLines total (i + 16) ((a :: rest).drop 16) := by
  rw [dartChunkLines]

theorem chunks16_join_aux :
    ∀ (n : Nat) (l : List Nat), l.length ≤ n → (chunks16 l).flatten = l := by
  intro n
  induction n with
  | zero =>
    intro l hl
    have hz : l = [] := List.eq_nil_of_length_eq_zero (Nat.le_zero.mp hl)
    subst hz
    simp [chunks16_nil]
  | succ n ih =>
    intro l hl
    match l with
    | [] => simp [chunks16_nil]
    | a :: rest =>
      rw [chunks16_cons, List.flatten_cons]
      have hlen : ((a :: rest).drop 16).length ≤ n := by
        rw [List.length_drop]
        have : (a :: rest).length ≤ n + 1 := hl
        omega
      rw [ih ((a :: rest).drop 16) hlen]
      exact List.take_append_drop 16 (a :: rest)

theorem chunks16_join (l : List Nat) : (chunks16 l).flatten = l :=
  chunks16_join_aux l.length l (le_refl _)

theorem chunks16_ne_nil {l : List Nat} (h : l ≠ []) : chunks16 l ≠ [] := by
  match l with
  | [] => exact absurd rfl h
  | a :: rest =>
    rw [chunks16_cons]
    simp

theorem mem_chunks16 :
    ∀ (n : Nat) (l : List Nat), l.length ≤ n →
      ∀ c ∈ chunks16 l, c ≠ [] ∧ c.length ≤ 16 := by
  intro n
  induction n with
  | zero =>
    intro l hl c hc
    have hz : l = [] := List.eq_nil_of_length_eq_zero (Nat.le_zero.mp hl)
    subst hz
    simp [chunks16_nil] at hc
  | succ n ih =>
    intro l hl c hc
    match l with
    | [] => simp [chunks16_nil] at hc
    | a :: rest =>
      rw [chunks16_cons] at hc
      rcases List.mem_cons.mp hc with h1 | h2
      · subst h1
        constructor
        · simp
        · rw [List.length_take]
          omega
      · have hlen : ((a :: rest).drop 16).length ≤ n := by
          rw [List.length_drop]
          have : (a :: rest).length ≤ n + 1 := hl
          omega
        exact ih ((a :: rest).drop 16) hlen c h2

theorem chunks16_dropLast :
    ∀ (n : Nat) (l : List Nat), l.length ≤ n →
      ∀ c ∈ (chunks16 l).dropLast, c.length = 16 := by
  intro n
  induction n with
  | zero =>
    intro l hl c hc
    have hz : l = [] := List.eq_nil_of_length_eq_zero (Nat.le_zero.mp hl)
    subst hz
    simp [chunks16_nil] at hc
  | succ n ih =>
    intro l hl c hc
    match l with
    | [] => simp [chunks16_nil] at hc
    | a :: rest =>
      rw [chunks16_cons] at hc
      by_cases hd : (a :: rest).drop 16 = []
      · rw [hd, chunks16_nil] at hc
        simp at hc
      · have hne := chunks16_ne_nil hd
        cases hcs : chunks16 ((a :: rest).drop 16) with
        | nil => exact absurd hcs hne
        | cons c0 cs' =>
          rw [hcs] at hc
          have h16 : 16 < (a :: rest).length := by
            by_contra hcon
            exact hd (List.drop_eq_nil_of_le (by omega))
          rcases List.mem_cons.mp hc with h1 | h2
          · subst h1
            rw [List.length_take]
            omega
          · have hlen : ((a :: rest).drop 16).length ≤ n := by
              rw [List.length_drop]
              have : (a :: rest).length ≤ n + 1 := hl
              omega
            have := ih ((a :: rest).drop 16) hlen c
            rw [hcs] at this
            exact this h2

theorem markLast_cons_of_ne_nil (s : String) {l : List String} (h : l ≠ []) :
    markLast (s :: l) = (s ++ ",") :: markLast l := by
  cases l with
  | nil => exact absurd rfl h
  | cons b t => rfl

theorem markLast_length : ∀ ls : List String, (markLast ls).length = ls.length := by
  intro ls
  induction ls with
  | nil => rfl
  | cons s t ih =>
    cases t with
    | nil => rfl
    | cons b t' =>
      rw [markLast_cons_of_ne_nil s (by simp)]
      simp [ih]

theorem markLast_ne_nil {ls : List String} (h : ls ≠ []) : markLast ls ≠ [] := by
  intro he
  apply h
  have hl := markLast_length ls
  rw [he] at hl
  simp at hl
  exact List.eq_nil_of_length_eq_zero hl.symm

theorem dropLast_cons_ne {α : Type} (a : α) {l : List α} (h : l ≠ []) :
    (a :: l).dropLast = a :: l.dropLast := by
  cases l with
  | nil => exact absurd rfl h
  | cons b t => rfl

theorem getLast?_cons_ne {α : Type} (a : α) {l : List α} (h : l ≠ []) :
    (a :: l).getLast? = l.getLast? := by
  cases l with
  | nil => exact absurd rfl h
  | cons b t => exact List.getLast?_cons_cons

theorem markLast_dropLast : ∀ ls : List String,
    (markLast ls).dropLast = ls.dropLast.map (fun s => s ++ ",") := by
  intro ls
  induction ls with
  | nil => rfl
  | cons s t ih =>
    cases t with
    | nil => rfl
    | cons b t' =>
      rw [markLast_cons_of_ne_nil s (by simp)]
      rw [dropLast_cons_ne _ (markLast_ne_nil (by simp : (b :: t') ≠ []))]
      rw [dropLast_cons_ne s (by simp : (b :: t') ≠ [])]
      rw [List.map_cons, ih]

theorem markLast_getLast? : ∀ ls : List String,
    (markLast ls).getLast? = ls.getLast? := by
  intro ls
  induction ls with
  | nil => rfl
  | cons s t ih =>
    cases t with
    | nil => rfl
    | cons b t' =>
      rw [markLast_cons_of_ne_nil s (by simp)]
      rw [getLast?_cons_ne _ (markLast_ne_nil (by simp : (b :: t') ≠ []))]
      rw [getLast?_cons_ne s (by simp : (b :: t') ≠ [])]
      exact ih

theorem dropLast_map_comm {α β : Type} (f : α → β) :
    ∀ l : List α, (l.map f).dropLast = l.dropLast.map f := by
  intro l
  induction l with
  | nil => rfl
  | cons a t ih =>
    cases t with
    | nil => rfl
    | cons b t' =>
      show f a :: (List.map f (b :: t')).dropLast =
        f a :: ((b :: t').dropLast.map f)
      rw [ih]

theorem getLast?_map_comm {α β : Type} (f : α → β) :
    ∀ l : List α, (l.map f).getLast? = l.getLast?.map f := by
  intro l
  induction l with
  | nil => rfl
  | cons a t ih =>
    cases t with
    | nil => rfl
    | cons b t' =>
      rw [List.map_cons]
      rw [getLast?_cons_ne _ (by simp : (b :: t').map f ≠ [])]
      rw [getLast?_cons_ne a (by simp : (b :: t') ≠ [])]
      exact ih

theorem dartChunkLines_eq_aux :
    ∀ (n : Nat) (l : List Nat), l.length ≤ n → ∀ i : Nat,
      dartChunkLines (i + l.length) i l = markLast ((chunks16 l).map chunkLine) := by
  intro n
  induction n with
  | zero =>
    intro l hl i
    have hz : l = [] := List.eq_nil_of_length_eq_zero (Nat.le_zero.mp hl)
    subst hz
    simp [dartChunkLines_nil, chunks16_nil, markLast]
  | succ n ih =>
    intro l hl i
    match l with
    | [] => simp [dartChunkLines_nil, chunks16_nil, markLast]
    | a :: rest =>
      rw [dartChunkLines_cons, chunks16_cons]
      by_cases h16 : 16 < (a :: rest).length
      · have hcond : i + 16 < i + (a :: rest).length := by omega
        rw [if_pos hcond]
        have hdne : (a :: rest).drop 16 ≠ [] := by
          intro hd
          have hld : ((a :: rest).drop 16).length = (a :: rest).length - 16 :=
            List.length_drop 16 (a :: rest)
          rw [hd] at hld
          simp only [List.length_nil] at hld
          omega
        have hlen : ((a :: rest).drop 16).length ≤ n := by
          rw [List.length_drop]
          have : (a :: rest).length ≤ n + 1 := hl
          omega
        have hrec := ih ((a :: rest).drop 16) hlen (i + 16)
        have harith : (i + 16) + ((a :: rest).drop 16).length = i + (a :: rest).length := by
          rw [List.length_drop]
          omega
        rw [harith] at hrec
        rw [hrec]
        rw [List.map_cons]
        have hmapne : (chunks16 ((a :: rest).drop 16)).map chunkLine ≠ [] := by
          have hch := chunks16_ne_nil hdne
          simpa using hch
        rw [markLast_cons_of_ne_nil _ hmapne]
      · rw [if_neg (by omega)]
        have hdnil : (a :: rest).drop 16 = [] := List.drop_eq_nil_of_le (by omega)
        rw [hdnil, chunks16_nil, dartChunkLines_nil]
        have htake : (a :: rest).take 16 = a :: rest :=
          List.take_of_length_le (by omega)
        rw [htake]
        rfl

theorem dartChunkLines_spec (l : List Nat) :
    dartChunkLines l.length 0 l = markLast ((chunks16 l).map chunkLine) := by
  have h := dartChunkLines_eq_aux l.length l (le_refl _) 0
  rw [Nat.zero_add] at h
  exact h

/-! ### Helper lemmas about the pipeline stages -/

theorem run_extraction_no_node {env : Env} (h : env.nodeAvailable = false)
    (st : St) :
    run_extraction env st =
      (false, { st with errLog := errNodeMissing :: st.errLog }) := by
  simp [run_extraction, h]

theorem run_extraction_fail {env : Env} {st : St} {msg : String}
    (h : env.nodeAvailable = true)
    (h2 : nodeScriptRun env.decompress st = NodeOutcome.fail msg) :
    run_extraction env st =
      (false, { st with errLog := errRunExtraction :: msg :: st.errLog }) := by
  simp [run_extraction, h, h2]

theorem run_extraction_ok {env : Env} {st : St} {raw : List Nat}
    (h : env.nodeAvailable = true)
    (h2 : nodeScriptRun env.decompress st = NodeOutcome.ok raw) :
    run_extraction env st = (true, { st with
      files := writeFile (st.cwd ++ ["mixbox_lut_raw.bin"]) (FileData.bin raw)
        st.files }) := by
  simp [run_extraction, h, h2]

theorem convert_to_dart_of_raw {st : St} {raw : List Nat}
    (h : findFile (st.cwd ++ ["mixbox_lut_raw.bin"]) st.files =
      some (FileData.bin raw)) :
    convert_to_dart st = some { st with
      dirs := dirPrefixes (outputDir st.cwd) ++ st.dirs,
      files := writeFile (outputPath st.cwd) (FileData.text (dart_code raw))
        st.files } := by
  simp [convert_to_dart, h]

theorem nodeScriptRun_ok_of {dec : List Char → Option (List Nat)} {st : St}
    {code : String} {cap : List Char} {lut lutBuffer : List Nat}
    (hfile : findFile (parentDir st.cwd ++ mixboxRel) st.files =
      some (FileData.text code))
    (hmatch : findLutMatch code.data = some cap)
    (hfn : containsSub decompressFnPat code.data = true)
    (hdec : dec cap = some lut)
    (hnorm : normalizeLut lut = some lutBuffer) :
    nodeScriptRun dec st = NodeOutcome.ok lutBuffer := by
  rw [nodeScriptRun, hfile]
  simp [hmatch, hfn, hdec, hnorm]

theorem main_ok_eq {env : Env} {st : St} {raw : List Nat}
    (hn : env.nodeAvailable = true)
    (ho : nodeScriptRun env.decompress
      (create_extraction_script { st with cwd := env.scriptDir }) =
        NodeOutcome.ok raw) :
    main env st =
      (0, cleanup
        { cwd := env.scriptDir,
          files := writeFile (outputPath env.scriptDir)
            (FileData.text (dart_code raw))
            (writeFile (env.scriptDir ++ ["mixbox_lut_raw.bin"]) (FileData.bin raw)
              (writeFile (env.scriptDir ++ ["extract_lut.js"]) FileData.snippet
                st.files)),
          dirs := dirPrefixes (outputDir env.scriptDir) ++ st.dirs,
          errLog := st.errLog }) := by
  have hre := run_extraction_ok hn ho
  have hconv := @convert_to_dart_of_raw
    { (create_extraction_script { st with cwd := env.scriptDir }) with
      files := writeFile
        ((create_extraction_script { st with cwd := env.scriptDir }).cwd ++
          ["mixbox_lut_raw.bin"]) (FileData.bin raw)
        (create_extraction_script { st with cwd := env.scriptDir }).files }
    raw (findFile_writeFile_self _ _ _)
  simp only [create_extraction_script] at hre hconv
  simp [main, create_extraction_script, hre, hconv]

theorem main_no_node_eq {env : Env} (hn : env.nodeAvailable = false) (st : St) :
    main env st =
      (1,
        { cwd := env.scriptDir,
          files := writeFile (env.scriptDir ++ ["extract_lut.js"])
            FileData.snippet st.files,
          dirs := st.dirs,
          errLog := errNodeMissing :: st.errLog }) := by
  have hre := run_extraction_no_node hn
    (create_extraction_script { st with cwd := env.scriptDir })
  simp only [create_extraction_script] at hre
  simp [main, create_extraction_script, hre]

theorem main_fail_eq {env : Env} {st : St} {msg : String}
    (hn : env.nodeAvailable = true)
    (ho : nodeScriptRun env.decompress
      (create_extraction_script { st with cwd := env.scriptDir }) =
        NodeOutcome.fail msg) :
    main env st =
      (1,
        { cwd := env.scriptDir,
          files := writeFile (env.scriptDir ++ ["extract_lut.js"])
            FileData.snippet st.files,
          dirs := st.dirs,
          errLog := errRunExtraction :: msg :: st.errLog }) := by
  have hre := run_extraction_fail hn ho
  simp only [create_extraction_script] at hre
  simp [main, create_extraction_script, hre]

/-- C1: Size normalization policy: a buffer of length exactly 786,432 is kept
unchanged; a longer buffer has its leading `length - 786432` bytes discarded,
keeping exactly the trailing 786,432-byte window (in particular a buffer of
length 800,000 keeps its last 786,432 bytes, i.e. drops 13,568); a shorter
buffer makes the run fail fatally (`none`). -/
theorem size_normalization_policy (lut : List Nat) :
    (lut.length = expectedSize → normalizeLut lut = some lut) ∧
    (lut.length > expectedSize →
      normalizeLut lut = some (lut.drop (lut.length - expectedSize)) ∧
      (lut.drop (lut.length - expectedSize)).length = expectedSize ∧
      lut = lut.take (lut.length - expectedSize) ++
        lut.drop (lut.length - expectedSize)) ∧
    (lut.length < expectedSize → normalizeLut lut = none) ∧
    (lut.length = 800000 → normalizeLut lut = some (lut.drop 13568)) := by
  refine ⟨fun h => ?_, fun h => ⟨?_, ?_, ?_⟩, fun h => ?_, fun h => ?_⟩
  · simp [normalizeLut, h]
  · simp [normalizeLut, Nat.ne_of_gt h, h]
  · simp [List.length_drop]
    omega
  · exact (List.take_append_drop _ _).symm
  · have h1 : lut.length ≠ expectedSize := Nat.ne_of_lt h
    have h2 : ¬ lut.length > expectedSize := by omega
    simp [normalizeLut, h1, h2]
  · have h1 : lut.length ≠ expectedSize := by
      rw [h]; simp [expectedSize]
    have h2 : lut.length > expectedSize := by
      rw [h]; simp [expectedSize]
    have h3 : lut.length - expectedSize = 13568 := by
      rw [h]; simp [expectedSize]
    simp [normalizeLut, h1, h2, h3]

/-- Witness for C1 at a concrete input: a buffer of length 800,000 is trimmed
to its last 786,432 bytes (13,568 bytes dropped). -/
theorem size_normalization_policy_witness :
    (List.replicate 800000 (7 : Nat)).length = 800000 ∧
    normalizeLut (List.replicate 800000 (7 : Nat)) =
      some ((List.replicate 800000 (7 : Nat)).drop 13568) :=
  ⟨by rw [List.length_replicate],
    (size_normalization_policy _).2.2.2 (by rw [List.length_replicate])⟩

/-- C2: for every normalized buffer of 786,432 bytes (each a byte value, i.e.
at most 255) from a successful run, the emitted array literal renders exactly
786,432 comma-separated integer entries — the 16-byte chunks of the buffer,
each rendered by `chunkLine` as decimal literals joined by commas, with a
comma after every line but the last — and every entry is in [0, 255]. -/
theorem output_entry_count_and_range (buf : List Nat)
    (hlen : buf.length = expectedSize) (hbyte : ∀ b ∈ buf, b ≤ 255) :
    ∃ chunks : List (List Nat),
      chunks = chunks16 buf ∧
      dart_code buf = dartHeader ++
        String.join ((markLast (chunks.map chunkLine)).map (fun l => l ++ "\n")) ++
        "];\n" ∧
      chunks.flatten = buf ∧
      chunks.flatten.length = 786432 ∧
      (∀ b ∈ chunks.flatten, b ≤ 255) := by
  refine ⟨chunks16 buf, rfl, ?_, chunks16_join buf, ?_, ?_⟩
  · rw [dart_code, dartChunkLines_spec]
  · rw [chunks16_join buf, hlen]
    rfl
  · rw [chunks16_join buf]
    exact hbyte

/-- Witness for C2 at a concrete 786,432-byte buffer. -/
theorem output_entry_count_and_range_witness :
    (List.replicate expectedSize (0 : Nat)).length = expectedSize ∧
    (∀ b ∈ List.replicate expectedSize (0 : Nat), b ≤ 255) ∧
    (∃ chunks : List (List Nat),
      chunks = chunks16 (List.replicate expectedSize (0 : Nat)) ∧
      dart_code (List.replicate expectedSize (0 : Nat)) = dartHeader ++
        String.join ((markLast (chunks.map chunkLine)).map (fun l => l ++ "\n")) ++
        "];\n" ∧
      chunks.flatten = List.replicate expectedSize (0 : Nat) ∧
      chunks.flatten.length = 786432 ∧
      (∀ b ∈ chunks.flatten, b ≤ 255)) := by
  have h1 : (List.replicate expectedSize (0 : Nat)).length = expectedSize := by
    rw [List.length_replicate]
  have h2 : ∀ b ∈ List.replicate expectedSize (0 : Nat), b ≤ 255 := by
    intro b hb
    rw [List.eq_of_mem_replicate hb]
    omega
  exact ⟨h1, h2, output_entry_count_and_range _ h1 h2⟩

/-- C3: round-trip identity: when the decompressed buffer has length exactly
786,432, normalization keeps it unchanged (no trimming), and the byte
sequence rendered into the array literal — the flattening of the 16-byte
chunks the emitter renders — is exactly the decompressed sequence. -/
theorem roundtrip_identity (lut : List Nat) (hlen : lut.length = expectedSize) :
    normalizeLut lut = some lut ∧
    (chunks16 lut).flatten = lut ∧
    dart_code lut = dartHeader ++
      String.join ((markLast ((chunks16 lut).map chunkLine)).map
        (fun l => l ++ "\n")) ++ "];\n" := by
  refine ⟨?_, chunks16_join lut, ?_⟩
  · simp [normalizeLut, hlen]
  · rw [dart_code, dartChunkLines_spec]

/-- Witness for C3 at a concrete buffer of length exactly 786,432. -/
theorem roundtrip_identity_witness :
    (List.replicate expectedSize (3 : Nat)).length = expectedSize ∧
    normalizeLut (List.replicate expectedSize (3 : Nat)) =
      some (List.replicate expectedSize (3 : Nat)) ∧
    (chunks16 (List.replicate expectedSize (3 : Nat))).flatten =
      List.replicate expectedSize (3 : Nat) := by
  have h1 : (List.replicate expectedSize (3 : Nat)).length = expectedSize := by
    rw [List.length_replicate]
  have h := roundtrip_identity _ h1
  exact ⟨h1, h.1, h.2.1⟩

/-- C4: exit-code mapping: `main` always returns 0 or 1; it returns 1 when
the JavaScript runtime is missing and when the extraction subprocess fails
(which covers the missing decompress pattern, a missing decompress function,
a throwing decompress, and a too-small decompressed size, all reported as a
`NodeOutcome.fail`); it returns 0 whenever the extraction stage succeeds. -/
theorem exit_code_mapping (env : Env) (st : St) :
    ((main env st).1 = 0 ∨ (main env st).1 = 1) ∧
    (env.nodeAvailable = false → (main env st).1 = 1) ∧
    (∀ msg : String,
      nodeScriptRun env.decompress
        (create_extraction_script { st with cwd := env.scriptDir }) =
          NodeOutcome.fail msg →
      (main env st).1 = 1) ∧
    ((run_extraction env
        (create_extraction_script { st with cwd := env.scriptDir })).1 = true →
      (main env st).1 = 0) := by
  cases hn : env.nodeAvailable with
  | false =>
    have hmain : (main env st).1 = 1 := by rw [main_no_node_eq hn]
    refine ⟨Or.inr hmain, fun _ => hmain, fun _ _ => hmain, fun htrue => ?_⟩
    rw [run_extraction_no_node hn] at htrue
    simp at htrue
  | true =>
    cases ho : nodeScriptRun env.decompress
        (create_extraction_script { st with cwd := env.scriptDir }) with
    | fail msg =>
      have hmain : (main env st).1 = 1 := by rw [main_fail_eq hn ho]
      refine ⟨Or.inr hmain, fun _ => hmain, fun _ _ => hmain, fun htrue => ?_⟩
      rw [run_extraction_fail hn ho] at htrue
      simp at htrue
    | ok raw =>
      have hmain : (main env st).1 = 0 := by rw [main_ok_eq hn ho]
      refine ⟨Or.inl hmain, fun hfalse => ?_, fun msg hmsg => ?_, fun _ => hmain⟩
      · exact absurd hfalse (by simp)
      · exact absurd hmsg (by simp)

/-- Witness for C4: with the JavaScript runtime missing, `main` exits 1. -/
theorem exit_code_mapping_witness :
    (main
      { scriptDir := ["r", "scripts"], nodeAvailable := false,
        decompress := fun _ => none }
      { cwd := [], files := [], dirs := [], errLog := [] }).1 = 1 :=
  (exit_code_mapping
    { scriptDir := ["r", "scripts"], nodeAvailable := false,
      decompress := fun _ => none }
    { cwd := [], files := [], dirs := [], errLog := [] }).2.1 rfl

/-- C5: when the runtime is available, the mixbox file is found and its
LUT declaration matches, but the decompressed buffer is shorter than 786,432
bytes, `main` exits with code 1 and the output Dart file is never written
(its path maps to the same content as before the run). -/
theorem size_too_small_exit1_no_output (env : Env) (st : St) (code : String)
    (cap : List Char) (lut : List Nat)
    (hnode : env.nodeAvailable = true)
    (hfile : findFile (parentDir env.scriptDir ++ mixboxRel)
      (create_extraction_script { st with cwd := env.scriptDir }).files =
        some (FileData.text code))
    (hmatch : findLutMatch code.data = some cap)
    (hfn : containsSub decompressFnPat code.data = true)
    (hdec : env.decompress cap = some lut)
    (hsmall : lut.length < expectedSize) :
    (main env st).1 = 1 ∧
    findFile (outputPath env.scriptDir) (main env st).2.files =
      findFile (outputPath env.scriptDir) st.files := by
  have hnorm : normalizeLut lut = none := by
    have h1 : lut.length ≠ expectedSize := Nat.ne_of_lt hsmall
    have h2 : ¬ lut.length > expectedSize := by omega
    simp [normalizeLut, h1, h2]
  have ho : nodeScriptRun env.decompress
      (create_extraction_script { st with cwd := env.scriptDir }) =
        NodeOutcome.fail errTooSmall := by
    have hcwd : (create_extraction_script { st with cwd := env.scriptDir }).cwd =
      env.scriptDir := rfl
    rw [nodeScriptRun, hcwd, hfile]
    simp [hmatch, hfn, hdec, hnorm]
  rw [main_fail_eq hnode ho]
  refine ⟨rfl, ?_⟩
  exact findFile_writeFile_ne (outputPath_ne_js env.scriptDir env.scriptDir).symm
    FileData.snippet st.files

/-- Witness for C5 on a concrete environment whose decompress oracle returns
a 100-byte buffer. -/
theorem size_too_small_witness :
    (main
      { scriptDir := ["r", "scripts"], nodeAvailable := true,
        decompress := fun _ => some (List.replicate 100 0) }
      { cwd := [],
        files := [(["r", "reference-mixbox", "mixbox-master", "javascript",
          "mixbox.esm.js"],
          FileData.text
            "function decompress( var lut = decompress(\"AB\");")],
        dirs := [], errLog := [] }).1 = 1 := by
  have h := size_too_small_exit1_no_output
    { scriptDir := ["r", "scripts"], nodeAvailable := true,
      decompress := fun _ => some (List.replicate 100 0) }
    { cwd := [],
      files := [(["r", "reference-mixbox", "mixbox-master", "javascript",
        "mixbox.esm.js"],
        FileData.text
          "function decompress( var lut = decompress(\"AB\");")],
      dirs := [], errLog := [] }
    "function decompress( var lut = decompress(\"AB\");"
    "AB".data (List.replicate 100 0) rfl (by decide) (by decide) (by decide)
    rfl (by rw [List.length_replicate]; decide)
  exact h.1

/-- C6: when the runtime is available and the mixbox file is found but it
does not contain the `decompress("...")` declaration pattern, `main` exits
with code 1, the Node.js error message has been printed to stderr, and the
output Dart file is never written (its path maps to the same content as
before the run). -/
theorem missing_pattern_exit1 (env : Env) (st : St) (code : String)
    (hnode : env.nodeAvailable = true)
    (hfile : findFile (parentDir env.scriptDir ++ mixboxRel)
      (create_extraction_script { st with cwd := env.scriptDir }).files =
        some (FileData.text code))
    (hmatch : findLutMatch code.data = none) :
    (main env st).1 = 1 ∧
    errNoLut ∈ (main env st).2.errLog ∧
    findFile (outputPath env.scriptDir) (main env st).2.files =
      findFile (outputPath env.scriptDir) st.files := by
  have ho : nodeScriptRun env.decompress
      (create_extraction_script { st with cwd := env.scriptDir }) =
        NodeOutcome.fail errNoLut := by
    have hcwd : (create_extraction_script { st with cwd := env.scriptDir }).cwd =
      env.scriptDir := rfl
    rw [nodeScriptRun, hcwd, hfile]
    simp [hmatch]
  rw [main_fail_eq hnode ho]
  refine ⟨rfl, ?_, ?_⟩
  · simp
  · exact findFile_writeFile_ne (outputPath_ne_js env.scriptDir env.scriptDir).symm
      FileData.snippet st.files

/-- Witness for C6 on a concrete mixbox file lacking the pattern. -/
theorem missing_pattern_witness :
    (main
      { scriptDir := ["r", "scripts"], nodeAvailable := true,
        decompress := fun _ => none }
      { cwd := [],
        files := [(["r", "reference-mixbox", "mixbox-master", "javascript",
          "mixbox.esm.js"], FileData.text "no lut declaration here")],
        dirs := [], errLog := [] }).1 = 1 := by
  have h := missing_pattern_exit1
    { scriptDir := ["r", "scripts"], nodeAvailable := true,
      decompress := fun _ => none }
    { cwd := [],
      files := [(["r", "reference-mixbox", "mixbox-master", "javascript",
        "mixbox.esm.js"], FileData.text "no lut declaration here")],
      dirs := [], errLog := [] }
    "no lut declaration here" rfl (by decide) (by decide)
  exact h.1

/-- C7: temporary-file lifecycle: when `main` exits 0 neither `extract_lut.js`
nor `mixbox_lut_raw.bin` exists in the script directory; when it exits 1 the
already-written extraction snippet is still present (deletion happens only on
success). -/
theorem cleanup_on_success_only (env : Env) (st : St) :
    ((main env st).1 = 0 →
      findFile (env.scriptDir ++ ["extract_lut.js"]) (main env st).2.files =
        none ∧
      findFile (env.scriptDir ++ ["mixbox_lut_raw.bin"]) (main env st).2.files =
        none) ∧
    ((main env st).1 = 1 →
      findFile (env.scriptDir ++ ["extract_lut.js"]) (main env st).2.files =
        some FileData.snippet) := by
  cases hn : env.nodeAvailable with
  | false =>
    rw [main_no_node_eq hn]
    refine ⟨fun h0 => absurd h0 (by simp), fun _ => ?_⟩
    exact findFile_writeFile_self _ _ _
  | true =>
    cases ho : nodeScriptRun env.decompress
        (create_extraction_script { st with cwd := env.scriptDir }) with
    | fail msg =>
      rw [main_fail_eq hn ho]
      refine ⟨fun h0 => absurd h0 (by simp), fun _ => ?_⟩
      exact findFile_writeFile_self _ _ _
    | ok raw =>
      rw [main_ok_eq hn ho]
      refine ⟨fun _ => ⟨?_, ?_⟩, fun h1 => absurd h1 (by simp)⟩
      · show findFile (env.scriptDir ++ ["extract_lut.js"])
          (eraseFile (env.scriptDir ++ ["mixbox_lut_raw.bin"])
            (eraseFile (env.scriptDir ++ ["extract_lut.js"]) _)) = none
        rw [findFile_eraseFile_ne (js_ne_rawbin env.scriptDir env.scriptDir)]
        exact findFile_eraseFile_self _ _
      · show findFile (env.scriptDir ++ ["mixbox_lut_raw.bin"])
          (eraseFile (env.scriptDir ++ ["mixbox_lut_raw.bin"])
            (eraseFile (env.scriptDir ++ ["extract_lut.js"]) _)) = none
        exact findFile_eraseFile_self _ _

/-- Witness for C7 on a concrete successful run: the exit code is 0 and
neither intermediate file remains. -/
theorem cleanup_on_success_only_witness :
    (main
      { scriptDir := ["r", "scripts"], nodeAvailable := true,
        decompress := fun _ => some (List.replicate expectedSize 0) }
      { cwd := [],
        files := [(["r", "reference-mixbox", "mixbox-master", "javascript",
          "mixbox.esm.js"],
          FileData.text
            "function decompress( var lut = decompress(\"AB\");")],
        dirs := [], errLog := [] }).1 = 0 ∧
    findFile (["r", "scripts"] ++ ["extract_lut.js"])
      (main
        { scriptDir := ["r", "scripts"], nodeAvailable := true,
          decompress := fun _ => some (List.replicate expectedSize 0) }
        { cwd := [],
          files := [(["r", "reference-mixbox", "mixbox-master", "javascript",
            "mixbox.esm.js"],
            FileData.text
              "function decompress( var lut = decompress(\"AB\");")],
          dirs := [], errLog := [] }).2.files = none ∧
    findFile (["r", "scripts"] ++ ["mixbox_lut_raw.bin"])
      (main
        { scriptDir := ["r", "scripts"], nodeAvailable := true,
          decompress := fun _ => some (List.replicate expectedSize 0) }
        { cwd := [],
          files := [(["r", "reference-mixbox", "mixbox-master", "javascript",
            "mixbox.esm.js"],
            FileData.text
              "function decompress( var lut = decompress(\"AB\");")],
          dirs := [], errLog := [] }).2.files = none := by
  have hfile : findFile
      (parentDir (["r", "scripts"] : Path) ++ mixboxRel)
      (create_extraction_script
        { cwd := ["r", "scripts"],
          files := [(["r", "reference-mixbox", "mixbox-master", "javascript",
            "mixbox.esm.js"],
            FileData.text
              "function decompress( var lut = decompress(\"AB\");")],
          dirs := [], errLog := [] }).files =
      some (FileData.text
        "function decompress( var lut = decompress(\"AB\");") := by decide
  have hmatch : findLutMatch
      ("function decompress( var lut = decompress(\"AB\");").data =
      some ("AB").data := by decide
  have hfn : containsSub decompressFnPat
      ("function decompress( var lut = decompress(\"AB\");").data = true := by
    decide
  have hnorm : normalizeLut (List.replicate expectedSize 0) =
      some (List.replicate expectedSize 0) := by
    have hl : (List.replicate expectedSize (0 : Nat)).length = expectedSize := by
      rw [List.length_replicate]
    simp [normalizeLut, hl]
  have ho : nodeScriptRun
      (fun _ => some (List.replicate expectedSize 0))
      (create_extraction_script
        { cwd := ["r", "scripts"],
          files := [(["r", "reference-mixbox", "mixbox-master", "javascript",
            "mixbox.esm.js"],
            FileData.text
              "function decompress( var lut = decompress(\"AB\");")],
          dirs := [], errLog := [] }) =
      NodeOutcome.ok (List.replicate expectedSize 0) :=
    nodeScriptRun_ok_of hfile hmatch hfn rfl hnorm
  have h0 : (main
      { scriptDir := ["r", "scripts"], nodeAvailable := true,
        decompress := fun _ => some (List.replicate expectedSize 0) }
      { cwd := [],
        files := [(["r", "reference-mixbox", "mixbox-master", "javascript",
          "mixbox.esm.js"],
          FileData.text
            "function decompress( var lut = decompress(\"AB\");")],
        dirs := [], errLog := [] }).1 = 0 := by
    rw [@main_ok_eq
      { scriptDir := ["r", "scripts"], nodeAvailable := true,
        decompress := fun _ => some (List.replicate expectedSize 0) }
      { cwd := [],
        files := [(["r", "reference-mixbox", "mixbox-master", "javascript",
          "mixbox.esm.js"],
          FileData.text
            "function decompress( var lut = decompress(\"AB\");")],
        dirs := [], errLog := [] }
      (List.replicate expectedSize 0) rfl ho]
  have hrest := (cleanup_on_success_only
    { scriptDir := ["r", "scripts"], nodeAvailable := true,
      decompress := fun _ => some (List.replicate expectedSize 0) }
    { cwd := [],
      files := [(["r", "reference-mixbox", "mixbox-master", "javascript",
        "mixbox.esm.js"],
        FileData.text
          "function decompress( var lut = decompress(\"AB\");")],
      dirs := [], errLog := [] }).1 h0
  exact ⟨h0, hrest.1, hrest.2⟩

/-- C9: `main` changes the working directory to the script's own directory
before any stage runs: its behaviour is identical for any two invocation
working directories, and the working directory at exit is the script
directory, so every relative path resolves against the script directory. -/
theorem chdir_before_stages (env : Env) (st : St) (cwd1 cwd2 : Path) :
    main env { st with cwd := cwd1 } = main env { st with cwd := cwd2 } ∧
    (main env st).2.cwd = env.scriptDir := by
  constructor
  · rfl
  · cases hn : env.nodeAvailable with
    | false => rw [main_no_node_eq hn]
    | true =>
      cases ho : nodeScriptRun env.decompress
          (create_extraction_script { st with cwd := env.scriptDir }) with
      | fail msg => rw [main_fail_eq hn ho]
      | ok raw => rw [main_ok_eq hn ho]; rfl

/-- Witness for C9 at a concrete environment and two distinct working
directories. -/
theorem chdir_before_stages_witness :
    main
      { scriptDir := ["r", "scripts"], nodeAvailable := false,
        decompress := fun _ => none }
      { cwd := ["a"], files := [], dirs := [], errLog := [] } =
    main
      { scriptDir := ["r", "scripts"], nodeAvailable := false,
        decompress := fun _ => none }
      { cwd := ["b", "c"], files := [], dirs := [], errLog := [] } :=
  (chdir_before_stages
    { scriptDir := ["r", "scripts"], nodeAvailable := false,
      decompress := fun _ => none }
    { cwd := [], files := [], dirs := [], errLog := [] } ["a"] ["b", "c"]).1

/-- C8: formatter contract: with the raw binary present, `convert_to_dart`
succeeds; it writes `dart_code raw` to the fixed relative output path
(`../lib/utils/mixbox_lut_data.dart` resolved against the working
directory), whose parent directory has been created; the rendered text is
the fixed header comment and `mixboxLutData` declaration followed by the
per-chunk lines; the chunks partition the buffer with 16 values per full
line; and each line renders its bytes as decimal literals joined by
comma-space. -/
theorem formatter_contract (st : St) (raw : List Nat)
    (hin : findFile (st.cwd ++ ["mixbox_lut_raw.bin"]) st.files =
      some (FileData.bin raw)) :
    ∃ st', convert_to_dart st = some st' ∧
      findFile (outputPath st.cwd) st'.files =
        some (FileData.text (dart_code raw)) ∧
      outputDir st.cwd ∈ st'.dirs ∧
      dart_code raw = dartHeader ++
        String.join ((markLast ((chunks16 raw).map chunkLine)).map
          (fun l => l ++ "\n")) ++ "];\n" ∧
      (chunks16 raw).flatten = raw ∧
      (∀ c ∈ chunks16 raw, c ≠ [] ∧ c.length ≤ 16) ∧
      (∀ c ∈ (chunks16 raw).dropLast, c.length = 16) ∧
      (∀ c : List Nat, chunkLine c =
        "  " ++ String.intercalate ", " (c.map (fun b => toString b))) ∧
      dartHeader = dartHeaderComment ++ "const List<int> mixboxLutData = [\n" := by
  refine ⟨_, convert_to_dart_of_raw hin, findFile_writeFile_self _ _ _, ?_, ?_,
    chunks16_join raw, ?_, ?_, fun c => rfl, rfl⟩
  · apply List.mem_append_left
    apply self_mem_dirPrefixes
    intro he
    have hlen : (outputDir st.cwd).length = 0 := by rw [he]; rfl
    rw [outputDir, List.length_append] at hlen
    simp at hlen
  · rw [dart_code, dartChunkLines_spec]
  · exact fun c hc => mem_chunks16 raw.length raw (le_refl _) c hc
  · exact fun c hc => chunks16_dropLast raw.length raw (le_refl _) c hc

/-- Witness for C8 on a concrete three-byte raw file. -/
theorem formatter_contract_witness :
    findFile ((["s"] : Path) ++ ["mixbox_lut_raw.bin"])
      [(["s", "mixbox_lut_raw.bin"], FileData.bin [1, 2, 3])] =
      some (FileData.bin [1, 2, 3]) ∧
    (∃ st', convert_to_dart
        { cwd := ["s"],
          files := [(["s", "mixbox_lut_raw.bin"], FileData.bin [1, 2, 3])],
          dirs := [], errLog := [] } = some st' ∧
      findFile (outputPath ["s"]) st'.files =
        some (FileData.text (dart_code [1, 2, 3])) ∧
      outputDir ["s"] ∈ st'.dirs ∧
      dart_code [1, 2, 3] = dartHeader ++
        String.join ((markLast ((chunks16 [1, 2, 3]).map chunkLine)).map
          (fun l => l ++ "\n")) ++ "];\n" ∧
      (chunks16 [1, 2, 3]).flatten = [1, 2, 3] ∧
      (∀ c ∈ chunks16 [1, 2, 3], c ≠ [] ∧ c.length ≤ 16) ∧
      (∀ c ∈ (chunks16 [1, 2, 3]).dropLast, c.length = 16) ∧
      (∀ c : List Nat, chunkLine c =
        "  " ++ String.intercalate ", " (c.map (fun b => toString b))) ∧
      dartHeader = dartHeaderComment ++ "const List<int> mixboxLutData = [\n") := by
  have h1 : findFile ((["s"] : Path) ++ ["mixbox_lut_raw.bin"])
      [(["s", "mixbox_lut_raw.bin"], FileData.bin [1, 2, 3])] =
      some (FileData.bin [1, 2, 3]) := by decide
  exact ⟨h1, formatter_contract
    { cwd := ["s"],
      files := [(["s", "mixbox_lut_raw.bin"], FileData.bin [1, 2, 3])],
      dirs := [], errLog := [] } [1, 2, 3] h1⟩

/-- C10: line layout of the emitted literal: for a non-empty buffer the line
list is non-empty; each line except the last is a `chunkLine` — two spaces of
indentation, then the decimal values joined by comma-space — followed by a
trailing comma, and the final line is a `chunkLine` with no trailing
comma. -/
theorem line_layout (lut : List Nat) (h : lut ≠ []) :
    dartChunkLines lut.length 0 lut = markLast ((chunks16 lut).map chunkLine) ∧
    dartChunkLines lut.length 0 lut ≠ [] ∧
    (∀ s ∈ (dartChunkLines lut.length 0 lut).dropLast,
      ∃ c ∈ chunks16 lut, s = chunkLine c ++ ",") ∧
    (∀ s, (dartChunkLines lut.length 0 lut).getLast? = some s →
      ∃ c ∈ chunks16 lut, s = chunkLine c) ∧
    (∀ c : List Nat, chunkLine c =
      "  " ++ String.intercalate ", " (c.map (fun b => toString b))) := by
  have hspec := dartChunkLines_spec lut
  have hch := chunks16_ne_nil h
  refine ⟨hspec, ?_, ?_, ?_, fun c => rfl⟩
  · rw [hspec]
    apply markLast_ne_nil
    simpa using hch
  · intro s hs
    rw [hspec, markLast_dropLast] at hs
    rw [dropLast_map_comm chunkLine] at hs
    rcases List.mem_map.mp hs with ⟨t, ht, rfl⟩
    rcases List.mem_map.mp ht with ⟨c, hc, rfl⟩
    exact ⟨c, (List.dropLast_sublist _).subset hc, rfl⟩
  · intro s hsl
    rw [hspec, markLast_getLast?] at hsl
    rw [getLast?_map_comm chunkLine] at hsl
    cases hgl : (chunks16 lut).getLast? with
    | none =>
      rw [hgl] at hsl
      simp at hsl
    | some c =>
      rw [hgl] at hsl
      simp at hsl
      rcases List.mem_getLast?_eq_getLast hgl with ⟨hne, hceq⟩
      refine ⟨c, ?_, hsl.symm⟩
      rw [hceq]
      exact List.getLast_mem hne

/-- Witness for C10 at a concrete three-byte buffer. -/
theorem line_layout_witness :
    (([1, 2, 3] : List Nat) ≠ []) ∧
    (dartChunkLines ([1, 2, 3] : List Nat).length 0 [1, 2, 3] =
      markLast ((chunks16 [1, 2, 3]).map chunkLine) ∧
    dartChunkLines ([1, 2, 3] : List Nat).length 0 [1, 2, 3] ≠ [] ∧
    (∀ s ∈ (dartChunkLines ([1, 2, 3] : List Nat).length 0 [1, 2, 3]).dropLast,
      ∃ c ∈ chunks16 [1, 2, 3], s = chunkLine c ++ ",") ∧
    (∀ s, (dartChunkLines ([1, 2, 3] : List Nat).length 0 [1, 2, 3]).getLast? =
        some s →
      ∃ c ∈ chunks16 [1, 2, 3], s = chunkLine c) ∧
    (∀ c : List Nat, chunkLine c =
      "  " ++ String.intercalate ", " (c.map (fun b => toString b)))) :=
  ⟨by decide, line_layout [1, 2, 3] (by decide)⟩

end MixboxExtract
